import Mathlib

/-!
# codex-mirror — shallow embedding and verification

Shallow embedding of the clone lifecycle core of `codex-mirror`
(`src/core/launcher.ts`, `src/core/clone-manager.ts`, `src/core/registry.ts`,
`src/core/wrapper-manager.ts`, `src/core/doctor.ts`, `src/utils/process.ts`,
`src/core/clone-name.ts`) into Lean 4, together with theorems settling the
frozen specification claims.

Conventions of the embedding:
* JS strings become Lean `String` (or `List Char` where character-level
  reasoning is needed); JS `string.length` is the character count.
* Filesystem and subprocess effects become explicit state passing / traces;
  fallible code returns `Except`.
* `node:path` primitives (`resolve`, `relative`, `join`) are modelled on
  POSIX-style segment lists.
-/

namespace CodexMirror

/-! ## Basic data model (src/types.ts) -/

inductive RuntimeKind
  | npmPackage
  | binary
deriving Repr, DecidableEq

inductive CloneTemplate
  | official
  | minimax
deriving Repr, DecidableEq

/-- `CloneRecord` from `src/types.ts`. -/
structure CloneRecord where
  id : String
  name : String
  template : Option CloneTemplate
  rootPath : String
  runtimePath : String
  runtimeEntryPath : String
  runtimeKind : RuntimeKind
  wrapperPath : String
  codexVersionPinned : String
  defaultCodexArgs : Option (List String)
  createdAt : String
  updatedAt : String
deriving Repr, DecidableEq

/-- `Registry` from `src/types.ts`: a versioned document with a clone list. -/
structure Registry where
  version : Nat
  clones : List CloneRecord
deriving Repr, DecidableEq

/-! ## String helpers

Executable models of the JavaScript string primitives the source uses
(`trim`, `toLowerCase`, `startsWith`), implemented on the character list of a
`String` so that concrete instances evaluate in the kernel. -/

/-- JS `String.prototype.trim`: strip whitespace from both ends. -/
def trimChars (l : List Char) : List Char :=
  ((l.dropWhile Char.isWhitespace).reverse.dropWhile Char.isWhitespace).reverse

/-- JS `trim` on `String`. -/
def jsTrim (s : String) : String := String.mk (trimChars s.data)

/-- JS `String.prototype.toLowerCase` (ASCII-relevant part). -/
def jsToLower (s : String) : String := String.mk (s.data.map Char.toLower)

/-- Is `p` a prefix of the character list (second argument)? -/
def charsStartWith : List Char → List Char → Bool
  | _, [] => true
  | [], _ :: _ => false
  | a :: as, b :: bs => a = b && charsStartWith as bs

/-- JS `String.prototype.startsWith`. -/
def strStartsWith (s p : String) : Bool := charsStartWith s.data p.data

/-! ## Launcher argument policy (src/core/launcher.ts) -/

/-- `CONTROL_COMMANDS` from `src/core/launcher.ts`. -/
def CONTROL_COMMANDS : List String :=
  ["login", "logout", "completion", "sandbox", "debug", "apply", "resume",
   "fork", "cloud", "features", "help", "mcp", "mcp-server", "app-server", "app"]

/-- `DEFAULTS_AFTER_SUBCOMMAND` from `src/core/launcher.ts`. -/
def DEFAULTS_AFTER_SUBCOMMAND : List String := ["exec", "review"]

/-- One iteration of the `hasExplicitProfileArgs` loop: does a single argument
name a profile explicitly? (The JS `if (!arg) continue` branch is equivalent to
the empty string failing all three tests.) -/
def isProfileFlagArg (arg : String) : Bool :=
  arg = "-p" || arg = "--profile" || strStartsWith arg "--profile="

/-- `hasExplicitProfileArgs` from `src/core/launcher.ts`. -/
def hasExplicitProfileArgs (args : List String) : Bool :=
  args.any isProfileFlagArg

/-- `isControlCommand` from `src/core/launcher.ts` (on a present first
argument; the `undefined` case is the empty-argument list, handled by the
caller's match). -/
def isControlCommand (firstArg : String) : Bool :=
  CONTROL_COMMANDS.contains (jsToLower (jsTrim firstArg))

/-- `resolveEffectiveArgs` from `src/core/launcher.ts`, with the clone's
`defaultCodexArgs ?? []` passed explicitly. -/
def resolveEffectiveArgs (defaults args : List String) : List String :=
  if defaults.isEmpty then args
  else
    match args with
    | [] => defaults
    | a0 :: rest =>
      if hasExplicitProfileArgs (a0 :: rest) || isControlCommand a0 then a0 :: rest
      else
        let firstArg := jsToLower (jsTrim a0)
        if firstArg ≠ "" && DEFAULTS_AFTER_SUBCOMMAND.contains firstArg then
          a0 :: (defaults ++ rest)
        else defaults ++ (a0 :: rest)

/-- `resolveLaunchArgs` from `src/core/launcher.ts`. -/
def resolveLaunchArgs (clone : CloneRecord) (args : List String) : List String :=
  resolveEffectiveArgs (clone.defaultCodexArgs.getD []) args

theorem resolveEffectiveArgs_of_profile (defaults : List String) (a0 : String)
    (rest : List String) (h : hasExplicitProfileArgs (a0 :: rest) = true) :
    resolveEffectiveArgs defaults (a0 :: rest) = a0 :: rest := by
  unfold resolveEffectiveArgs
  by_cases hd : defaults.isEmpty
  · rw [if_pos hd]
  · rw [if_neg hd]
    show (if (hasExplicitProfileArgs (a0 :: rest) || isControlCommand a0) = true
        then a0 :: rest
        else
          let firstArg := jsToLower (jsTrim a0)
          if firstArg ≠ "" && DEFAULTS_AFTER_SUBCOMMAND.contains firstArg then
            a0 :: (defaults ++ rest)
          else defaults ++ (a0 :: rest)) = a0 :: rest
    rw [h, Bool.true_or, if_pos rfl]

/-- A sample clone record (shape of the fixtures in `tests/launcher.test.ts`),
with the default arguments `["--profile", "m21"]`. -/
def demoClone : CloneRecord :=
  { id := "id"
    name := "demo"
    template := none
    rootPath := "/tmp/demo-project"
    runtimePath := "/tmp/demo-project/.codex-mirror/runtime"
    runtimeEntryPath := "/tmp/demo-project/.codex-mirror/runtime/bin/codex"
    runtimeKind := .binary
    wrapperPath := "/tmp/bin/demo"
    codexVersionPinned := "0.1.0"
    defaultCodexArgs := some ["--profile", "m21"]
    createdAt := "2026-01-01T00:00:00.000Z"
    updatedAt := "2026-01-01T00:00:00.000Z" }

/-- **C1**: for every clone whose default args are `["--profile", "m21"]`,
`resolveLaunchArgs` returns the defaults for empty caller args; prepends the
defaults to `["--model", "o3"]`; passes through any argument list carrying an
explicit profile flag unmodified; passes through `["login", "status"]` (control
command) unmodified; and turns `["exec", "hello"]` into
`["exec", "--profile", "m21", "hello"]` (defaults inserted right after the
first argument). -/
theorem resolveLaunchArgs_policy (c : CloneRecord)
    (hd : c.defaultCodexArgs = some ["--profile", "m21"]) :
    resolveLaunchArgs c [] = ["--profile", "m21"] ∧
    resolveLaunchArgs c ["--model", "o3"] = ["--profile", "m21", "--model", "o3"] ∧
    (∀ args : List String, hasExplicitProfileArgs args = true →
      resolveLaunchArgs c args = args) ∧
    resolveLaunchArgs c ["login", "status"] = ["login", "status"] ∧
    resolveLaunchArgs c ["exec", "hello"] = ["exec", "--profile", "m21", "hello"] := by
  unfold resolveLaunchArgs
  rw [hd]
  refine ⟨by decide, by decide, ?_, by decide, by decide⟩
  intro args hargs
  cases args with
  | nil => simp [hasExplicitProfileArgs] at hargs
  | cons a0 rest => exact resolveEffectiveArgs_of_profile _ a0 rest hargs

theorem resolveLaunchArgs_policy_witness :
    demoClone.defaultCodexArgs = some ["--profile", "m21"] ∧
    resolveLaunchArgs demoClone ["--profile", "custom"] = ["--profile", "custom"] :=
  ⟨rfl, (resolveLaunchArgs_policy demoClone rfl).2.2.1 ["--profile", "custom"] (by decide)⟩

/-! ## Captured subprocess output limit (src/utils/process.ts) -/

/-- `maxBytes` from `runCapture` in `src/utils/process.ts`. -/
def MAX_CAPTURE_CHARS : Nat := 1024 * 1024

/-- `appendWithLimit` from `src/utils/process.ts`:
`combined.slice(combined.length - limit)` keeps the last `limit` characters. -/
def appendWithLimit (existing text : List Char) (limit : Nat) : List Char :=
  let combined := existing ++ text
  if combined.length ≤ limit then combined
  else combined.drop (combined.length - limit)

/-- The accumulation performed by `runCapture`'s `data` handlers in
`src/utils/process.ts`: each arriving chunk is folded into the stream buffer
with `appendWithLimit`, starting from the empty string. Both `stdout` and
`stderr` use this same accumulation. -/
def captureStream (chunks : List (List Char)) : List Char :=
  chunks.foldl (fun acc c => appendWithLimit acc c MAX_CAPTURE_CHARS) []

/-- The last `n` characters of a string (all of it when it is shorter). -/
def lastChars (n : Nat) (l : List Char) : List Char :=
  l.drop (l.length - n)

theorem appendWithLimit_eq_lastChars (e t : List Char) (limit : Nat) :
    appendWithLimit e t limit = lastChars limit (e ++ t) := by
  simp only [appendWithLimit, lastChars]
  by_cases h : (e ++ t).length ≤ limit
  · rw [if_pos h, Nat.sub_eq_zero_of_le h, List.drop_zero]
  · rw [if_neg h]

theorem length_lastChars (n : Nat) (l : List Char) :
    (lastChars n l).length ≤ n := by
  unfold lastChars
  rw [List.length_drop]
  omega

theorem lastChars_append_lastChars (n : Nat) (s t : List Char) :
    lastChars n (lastChars n s ++ t) = lastChars n (s ++ t) := by
  unfold lastChars
  rcases Nat.le_total s.length n with hsn | hns
  · rw [Nat.sub_eq_zero_of_le hsn, List.drop_zero]
  · -- `s.drop (s.length - n)` has length exactly `n`
    have hlen : (s.drop (s.length - n)).length = n := by
      rw [List.length_drop]; omega
    rcases Nat.le_total t.length n with htn | hnt
    · -- the tail fits into the window: both sides keep a suffix of `s` plus `t`
      have hd1 : (s.drop (s.length - n) ++ t).drop ((s.drop (s.length - n) ++ t).length - n)
          = s.drop (s.length - n + t.length) ++ t := by
        rw [List.length_append, hlen]
        have hamt : n + t.length - n = t.length := by omega
        rw [hamt, List.drop_append_of_le_length (by rw [hlen]; exact htn), List.drop_drop]
      have hd2 : (s ++ t).drop ((s ++ t).length - n)
          = s.drop (s.length + t.length - n) ++ t := by
        rw [List.length_append]
        exact List.drop_append_of_le_length (by omega)
      rw [hd1, hd2]
      have hamt : s.length - n + t.length = s.length + t.length - n := by omega
      rw [hamt]
    · -- the tail alone overflows the window: both sides keep a suffix of `t`
      have hd1 : (s.drop (s.length - n) ++ t).drop ((s.drop (s.length - n) ++ t).length - n)
          = t.drop (t.length - n) := by
        rw [List.length_append, hlen]
        have hamt : n + t.length - n = (s.drop (s.length - n)).length + (t.length - n) := by
          rw [hlen]; omega
        rw [hamt, List.drop_append]
      have hd2 : (s ++ t).drop ((s ++ t).length - n) = t.drop (t.length - n) := by
        rw [List.length_append]
        have hamt : s.length + t.length - n = s.length + (t.length - n) := by omega
        rw [hamt, List.drop_append]
      rw [hd1, hd2]

theorem captureStream_go (chunks : List (List Char)) (s : List Char) :
    chunks.foldl (fun acc c => appendWithLimit acc c MAX_CAPTURE_CHARS)
      (lastChars MAX_CAPTURE_CHARS s)
      = lastChars MAX_CAPTURE_CHARS (s ++ chunks.flatten) := by
  induction chunks generalizing s with
  | nil => rw [List.foldl_nil, List.flatten_nil, List.append_nil]
  | cons c cs ih =>
    simp only [List.foldl_cons, List.flatten_cons]
    rw [appendWithLimit_eq_lastChars, lastChars_append_lastChars, ← List.append_assoc]
    exact ih (s ++ c)

/-- **C10**: every captured stream is at most 1,048,576 characters, and it is
exactly the most recent 1 MiB of everything the child wrote on that stream
(oldest output silently discarded). -/
theorem captureStream_bounded_and_recent (chunks : List (List Char)) :
    (captureStream chunks).length ≤ 1048576 ∧
    captureStream chunks = lastChars MAX_CAPTURE_CHARS chunks.flatten := by
  have hstart : ([] : List Char) = lastChars MAX_CAPTURE_CHARS [] := by
    simp [lastChars]
  have h : captureStream chunks = lastChars MAX_CAPTURE_CHARS chunks.flatten := by
    unfold captureStream
    rw [hstart, captureStream_go, List.nil_append]
  refine ⟨?_, h⟩
  rw [h]
  exact length_lastChars _ _

/-! ## Clone name validation (src/core/clone-name.ts) -/

def MAX_CLONE_NAME_LENGTH : Nat := 64

/-- `WINDOWS_RESERVED_NAMES` from `src/core/clone-name.ts`. -/
def WINDOWS_RESERVED_NAMES : List String :=
  ["con", "prn", "aux", "nul",
   "com1", "com2", "com3", "com4", "com5", "com6", "com7", "com8", "com9",
   "lpt1", "lpt2", "lpt3", "lpt4", "lpt5", "lpt6", "lpt7", "lpt8", "lpt9"]

/-- The leading character class `[a-zA-Z0-9]` of `CLONE_NAME_RE`. -/
def isNameStartChar (c : Char) : Bool := c.isUpper || c.isLower || c.isDigit

/-- The tail character class `[a-zA-Z0-9._-]` of `CLONE_NAME_RE`. -/
def isNameTailChar (c : Char) : Bool :=
  isNameStartChar c || c = '.' || c = '_' || c = '-'

/-- `CLONE_NAME_RE.test`, the regex being `/^[a-zA-Z0-9][a-zA-Z0-9._-]*$/`. -/
def matchesCloneNameRe (l : List Char) : Bool :=
  match l with
  | [] => false
  | c :: cs => isNameStartChar c && cs.all isNameTailChar

/-- JS `normalized.includes("..")` as a character-list scan. -/
def hasDotDot : List Char → Bool
  | [] => false
  | [_] => false
  | a :: b :: rest => (a = '.' && b = '.') || hasDotDot (b :: rest)

/-- `CloneNameValidation` from `src/core/clone-name.ts`. -/
structure CloneNameValidation where
  ok : Bool
  normalized : String
  error : Option String
deriving Repr, DecidableEq

/-- `validateCloneName` from `src/core/clone-name.ts`. -/
def validateCloneName (input : String) : CloneNameValidation :=
  let normalized := jsTrim input
  if normalized = "" then
    ⟨false, normalized, some "Clone name cannot be empty"⟩
  else if normalized.length > MAX_CLONE_NAME_LENGTH then
    ⟨false, normalized, some "Clone name must be 64 characters or fewer"⟩
  else if normalized.data.contains '/' || normalized.data.contains '\\' then
    ⟨false, normalized, some "Clone name cannot contain path separators"⟩
  else if hasDotDot normalized.data then
    ⟨false, normalized, some "Clone name cannot include dot-dot"⟩
  else if !(matchesCloneNameRe normalized.data) then
    ⟨false, normalized,
      some "Use letters, numbers, dot, underscore, and hyphen; must start with letter or number"⟩
  else if WINDOWS_RESERVED_NAMES.contains (jsToLower normalized) then
    ⟨false, normalized, some "Clone name is reserved on Windows"⟩
  else ⟨true, normalized, none⟩

/-- `assertValidCloneName` from `src/core/clone-name.ts`: the normalized name,
or the validation error as an `Except` error. -/
def assertValidCloneName (input : String) : Except String String :=
  let r := validateCloneName input
  if r.ok then .ok r.normalized else .error (r.error.getD "Invalid clone name")

theorem validateCloneName_normalized (s : String) :
    (validateCloneName s).normalized = jsTrim s := by
  unfold validateCloneName
  dsimp only
  repeat' split
  all_goals rfl

theorem validateCloneName_ok_guards (s : String)
    (h : (validateCloneName s).ok = true) :
    (jsTrim s).data.contains '/' = false ∧
    hasDotDot (jsTrim s).data = false ∧
    matchesCloneNameRe (jsTrim s).data = true := by
  unfold validateCloneName at h
  dsimp only at h
  split at h
  · simp at h
  · split at h
    · simp at h
    · split at h
      · simp at h
      · split at h
        · simp at h
        · split at h
          · simp at h
          · next hsep hdd hre =>
            refine ⟨?_, ?_, ?_⟩
            · simp only [Bool.or_eq_true, not_or, Bool.not_eq_true] at hsep
              exact hsep.1
            · simpa using hdd
            · simpa using hre

theorem assertValidCloneName_ok_iff (s n : String)
    (hok : assertValidCloneName s = .ok n) :
    (validateCloneName s).ok = true ∧ n = jsTrim s := by
  unfold assertValidCloneName at hok
  dsimp only at hok
  split at hok
  · next hr =>
    simp only [Except.ok.injEq] at hok
    exact ⟨hr, hok ▸ validateCloneName_normalized s⟩
  · exact absurd hok (by simp)

theorem assertValidCloneName_ok_facts (s n : String)
    (hok : assertValidCloneName s = .ok n) :
    n.data.contains '/' = false ∧ hasDotDot n.data = false ∧
    matchesCloneNameRe n.data = true := by
  obtain ⟨hr, hn⟩ := assertValidCloneName_ok_iff s n hok
  subst hn
  exact validateCloneName_ok_guards s hr

theorem isNameStartChar_ne (c : Char) (h : isNameStartChar c = true) :
    c ≠ '.' ∧ c ≠ '/' := by
  constructor <;> intro hc <;> subst hc <;> exact absurd h (by decide)

/-- A path segment that the POSIX normalizer leaves untouched. -/
def isPlainSeg (seg : String) : Prop := seg ≠ "" ∧ seg ≠ "." ∧ seg ≠ ".."

instance : DecidablePred isPlainSeg := fun seg => by
  unfold isPlainSeg
  infer_instance

theorem matchesRe_plain (n : String) (hre : matchesCloneNameRe n.data = true) :
    isPlainSeg n ∧ strStartsWith n ".." = false ∧ strStartsWith n "/" = false := by
  rcases hd : n.data with _ | ⟨c, cs⟩
  · rw [hd] at hre
    exact absurd hre (by decide)
  · rw [hd] at hre
    simp only [matchesCloneNameRe, Bool.and_eq_true] at hre
    obtain ⟨hdot, hslash⟩ := isNameStartChar_ne c hre.1
    refine ⟨⟨?_, ?_, ?_⟩, ?_, ?_⟩
    · intro h
      rw [h] at hd
      have hnil : ([] : List Char) = c :: cs := hd
      exact List.noConfusion hnil
    · intro h
      rw [h] at hd
      have hone : ['.'] = c :: cs := hd
      injection hone with h1 _
      exact hdot h1.symm
    · intro h
      rw [h] at hd
      have htwo : ['.', '.'] = c :: cs := hd
      injection htwo with h1 _
      exact hdot h1.symm
    · have hrw : strStartsWith n ".." = charsStartWith (c :: cs) ['.', '.'] := by
        unfold strStartsWith
        rw [hd]
      rw [hrw]
      show (decide (c = '.') && charsStartWith cs ['.']) = false
      rw [decide_eq_false hdot, Bool.false_and]
    · have hrw : strStartsWith n "/" = charsStartWith (c :: cs) ['/'] := by
        unfold strStartsWith
        rw [hd]
      rw [hrw]
      show (decide (c = '/') && charsStartWith cs []) = false
      rw [decide_eq_false hslash, Bool.false_and]

/-! ## POSIX path model (node:path primitives)

Absolute paths are modelled as lists of path segments.  `resolve` on an
absolute, already-resolved base appends the (relative) child and normalizes;
`relative` strips the common prefix and walks upward with `..` segments. -/

/-- Split a character list at `/` separators. -/
def splitSlash : List Char → List (List Char)
  | [] => [[]]
  | c :: rest =>
    match splitSlash rest with
    | [] => [[c]]
    | seg :: segs => if c = '/' then [] :: seg :: segs else (c :: seg) :: segs

/-- Split a string into `/`-separated segments. -/
def splitSegsOf (s : String) : List String := (splitSlash s.data).map String.mk

/-- One step of POSIX path normalization. -/
def normAbsStep (acc : List String) (seg : String) : List String :=
  if seg = "" || seg = "." then acc
  else if seg = ".." then acc.dropLast
  else acc ++ [seg]

/-- Normalize the segments of an absolute path (resolve `.`, `..`, `//`). -/
def normAbs (segs : List String) : List String := segs.foldl normAbsStep []

/-- `node:path` `resolve(base, child)` for an absolute, pre-resolved `base`
and a relative `child`. -/
def nodeResolve (base : List String) (child : String) : List String :=
  normAbs (base ++ splitSegsOf child)

/-- Drop the common prefix of two segment lists. -/
def stripCommon : List String → List String → List String × List String
  | a :: as, b :: bs => if a = b then stripCommon as bs else (a :: as, b :: bs)
  | as, bs => (as, bs)

/-- Join segments back into a `/`-separated string. -/
def joinSegs : List String → String
  | [] => ""
  | [s] => s
  | s :: rest => s ++ "/" ++ joinSegs rest

/-- `node:path` `relative(fromPath, toPath)` on absolute segment lists. -/
def nodeRelative (fromSegs toSegs : List String) : String :=
  let p := stripCommon fromSegs toSegs
  joinSegs (List.replicate p.1.length ".." ++ p.2)

theorem splitSlash_no_sep (l : List Char) (h : l.contains '/' = false) :
    splitSlash l = [l] := by
  induction l with
  | nil => rfl
  | cons c rest ih =>
    rw [List.contains_cons, Bool.or_eq_false_iff] at h
    have hc : c ≠ '/' := (ne_of_beq_false h.1).symm
    simp only [splitSlash]
    rw [ih h.2]
    show (if c = '/' then [] :: rest :: ([] : List (List Char))
      else (c :: rest) :: []) = [c :: rest]
    rw [if_neg hc]

theorem splitSegsOf_single (n : String) (h : n.data.contains '/' = false) :
    splitSegsOf n = [n] := by
  unfold splitSegsOf
  rw [splitSlash_no_sep n.data h]
  rfl

theorem normAbs_go (l : List String) (h : ∀ seg ∈ l, isPlainSeg seg)
    (acc : List String) : l.foldl normAbsStep acc = acc ++ l := by
  induction l generalizing acc with
  | nil => simp
  | cons s rest ih =>
    have hs := h s (by simp)
    have hstep : normAbsStep acc s = acc ++ [s] := by
      simp [normAbsStep, hs.1, hs.2.1, hs.2.2]
    rw [List.foldl_cons, hstep,
      ih (fun seg hseg => h seg (List.mem_cons_of_mem _ hseg)), List.append_assoc]
    rfl

theorem normAbs_plain (l : List String) (h : ∀ seg ∈ l, isPlainSeg seg) :
    normAbs l = l := by
  unfold normAbs
  rw [normAbs_go l h, List.nil_append]

theorem stripCommon_append (base t : List String) :
    stripCommon base (base ++ t) = ([], t) := by
  induction base with
  | nil => cases t <;> rfl
  | cons a as ih =>
    show stripCommon (a :: as) (a :: (as ++ t)) = ([], t)
    simp only [stripCommon]
    rw [if_pos trivial]
    exact ih

theorem charsStartWith_append (x y p : List Char) (h : charsStartWith x p = true) :
    charsStartWith (x ++ y) p = true := by
  induction p generalizing x with
  | nil =>
    cases x ++ y <;> rfl
  | cons b bs ih =>
    cases x with
    | nil => simp [charsStartWith] at h
    | cons a as =>
      simp only [List.cons_append, charsStartWith, Bool.and_eq_true] at h ⊢
      exact ⟨h.1, ih as h.2⟩

theorem strStartsWith_append (a b p : String) (h : strStartsWith a p = true) :
    strStartsWith (a ++ b) p = true := by
  unfold strStartsWith at *
  rw [String.data_append]
  exact charsStartWith_append _ _ _ h

/-! ## Wrapper manager (src/core/wrapper-manager.ts) -/

/-- The `lstat` view of a filesystem entry (`none` in the operations below
means ENOENT). -/
inductive FileKind
  | regular
  | symlink
  | directory
  | fifo
  | socketFile
deriving Repr, DecidableEq

/-- A filesystem side effect performed by `installWrapper`. -/
inductive FsOp
  | mkdirOp (path : List String)
  | writeTempOp (path : String)
  | chmodOp (path : String)
  | renameOp (src dst : String)
deriving Repr, DecidableEq

/-- `WrapperManager.assertPathWithinBinDir` from `src/core/wrapper-manager.ts`. -/
def assertPathWithinBinDir (binDir path : List String) : Except String Unit :=
  let rel := nodeRelative binDir path
  if rel = "" || rel = "." || strStartsWith rel ".." || strStartsWith rel "/" then
    .error "Unsafe wrapper path computed for clone"
  else .ok ()

/-- `WrapperManager.getPathForClone` from `src/core/wrapper-manager.ts`;
`binDir` is the resolved bin directory as a segment list. -/
def getPathForClone (binDir : List String) (name : String) :
    Except String (List String) :=
  match assertValidCloneName name with
  | .error e => .error e
  | .ok cloneName =>
    let wrapperPath := nodeResolve binDir cloneName
    match assertPathWithinBinDir binDir wrapperPath with
    | .error e => .error e
    | .ok _ => .ok wrapperPath

/-- `WrapperManager.assertSafeInstallTarget` from `src/core/wrapper-manager.ts`:
`target` is the non-following `lstat` of the install path. -/
def assertSafeInstallTarget (target : Option FileKind) (path : String) :
    Except String Unit :=
  match target with
  | none => .ok ()
  | some k =>
    if k = FileKind.symlink then
      .error ("Refusing to overwrite wrapper symlink at " ++ path)
    else if k ≠ FileKind.regular then
      .error ("Refusing to overwrite non-regular wrapper target at " ++ path)
    else .ok ()

/-- `WrapperManager.installWrapper` from `src/core/wrapper-manager.ts`, as a
trace of attempted filesystem operations next to the result.  `tempTag` stands
for the unique `pid`/`uuid` part of the temporary file name. -/
def installWrapper (binDir : List String) (name : String)
    (target : Option FileKind) (tempTag : String) :
    List FsOp × Except String (List String) :=
  let ops0 := [FsOp.mkdirOp binDir]
  match getPathForClone binDir name with
  | .error e => (ops0, .error e)
  | .ok wrapperSegs =>
    let wp := joinSegs wrapperSegs
    match assertSafeInstallTarget target wp with
    | .error e => (ops0, .error e)
    | .ok _ =>
      let tempPath := wp ++ ".tmp-" ++ tempTag
      (ops0 ++ [FsOp.writeTempOp tempPath, FsOp.chmodOp tempPath,
        FsOp.renameOp tempPath wp], .ok wrapperSegs)

theorem getPathForClone_ok_shape (binDir : List String) (name n : String)
    (hbase : ∀ seg ∈ binDir, isPlainSeg seg)
    (hok : assertValidCloneName name = .ok n) :
    getPathForClone binDir name = .ok (binDir ++ [n]) ∧
    nodeRelative binDir (binDir ++ [n]) = n := by
  obtain ⟨hsep, hdd, hre⟩ := assertValidCloneName_ok_facts name n hok
  obtain ⟨hplain, h2, h3⟩ := matchesRe_plain n hre
  have hres : nodeResolve binDir n = binDir ++ [n] := by
    unfold nodeResolve
    rw [splitSegsOf_single n hsep]
    refine normAbs_plain _ ?_
    intro seg hseg
    rcases List.mem_append.mp hseg with h | h
    · exact hbase seg h
    · rw [List.mem_singleton.mp h]
      exact hplain
  have hrel : nodeRelative binDir (binDir ++ [n]) = n := by
    show joinSegs
        (List.replicate (stripCommon binDir (binDir ++ [n])).1.length ".." ++
          (stripCommon binDir (binDir ++ [n])).2) = n
    rw [stripCommon_append]
    rfl
  have hcond : (decide (n = "") || decide (n = ".") ||
      strStartsWith n ".." || strStartsWith n "/") = false := by
    rw [decide_eq_false hplain.1, decide_eq_false hplain.2.1, h2, h3]
    rfl
  have hwithin : assertPathWithinBinDir binDir (binDir ++ [n]) = .ok () := by
    unfold assertPathWithinBinDir
    dsimp only
    rw [hrel, if_neg (by rw [hcond]; exact Bool.false_ne_true)]
  refine ⟨?_, hrel⟩
  unfold getPathForClone
  rw [hok]
  dsimp only
  rw [hres, hwithin]

/-- **C7**: for every name, the wrapper path computation either fails (purely,
before any filesystem write) or returns a path strictly inside the configured
bin directory: the path is `binDir` extended by one nonempty segment, and its
relative path from `binDir` is nonempty, not `.`, does not start with a
parent-traversal component and is not absolute.  Traversal-shaped names such
as `../evil` are rejected. -/
theorem getPathForClone_confined (binDir : List String)
    (hbase : ∀ seg ∈ binDir, isPlainSeg seg) :
    (∀ name : String,
      (∃ e, getPathForClone binDir name = .error e) ∨
      (∃ n, getPathForClone binDir name = .ok (binDir ++ [n]) ∧ n ≠ "" ∧
        nodeRelative binDir (binDir ++ [n]) = n ∧ n ≠ "." ∧
        strStartsWith n ".." = false ∧ strStartsWith n "/" = false)) ∧
    getPathForClone binDir "../evil" =
      .error "Clone name cannot contain path separators" := by
  constructor
  · intro name
    rcases heq : assertValidCloneName name with e | n
    · left
      refine ⟨e, ?_⟩
      unfold getPathForClone
      rw [heq]
    · right
      obtain ⟨hokk, hrel⟩ := getPathForClone_ok_shape binDir name n hbase heq
      obtain ⟨hsep, hdd, hre⟩ := assertValidCloneName_ok_facts name n heq
      obtain ⟨hplain, h2, h3⟩ := matchesRe_plain n hre
      exact ⟨n, hokk, hplain.1, hrel, hplain.2.1, h2, h3⟩
  · rfl

/-- Bin directory used by concrete witnesses. -/
def demoBinDir : List String := ["home", "user", ".local", "bin"]

theorem getPathForClone_confined_witness :
    (∀ seg ∈ demoBinDir, isPlainSeg seg) ∧
    ((∀ name : String,
      (∃ e, getPathForClone demoBinDir name = .error e) ∨
      (∃ n, getPathForClone demoBinDir name = .ok (demoBinDir ++ [n]) ∧ n ≠ "" ∧
        nodeRelative demoBinDir (demoBinDir ++ [n]) = n ∧ n ≠ "." ∧
        strStartsWith n ".." = false ∧ strStartsWith n "/" = false)) ∧
    getPathForClone demoBinDir "../evil" =
      .error "Clone name cannot contain path separators") :=
  ⟨by decide, getPathForClone_confined demoBinDir (by decide)⟩

/-- **C8**: installing a wrapper over an existing symlink or any non-regular
file fails with an unsafe-overwrite error, and the only filesystem operation
in the trace is the `mkdir` of the bin directory itself: nothing is written,
so the pre-existing target (and whatever a symlink points to) is untouched. -/
theorem installWrapper_overwrite_defense (binDir : List String) (name n : String)
    (target : FileKind) (tempTag : String)
    (hbase : ∀ seg ∈ binDir, isPlainSeg seg)
    (hok : assertValidCloneName name = .ok n)
    (hk : target ≠ FileKind.regular) :
    (∃ e, (installWrapper binDir name (some target) tempTag).2 = .error e ∧
      strStartsWith e "Refusing to overwrite" = true) ∧
    (installWrapper binDir name (some target) tempTag).1 = [FsOp.mkdirOp binDir] := by
  obtain ⟨hpath, _⟩ := getPathForClone_ok_shape binDir name n hbase hok
  have hassert : ∃ e, assertSafeInstallTarget (some target) (joinSegs (binDir ++ [n]))
      = .error e ∧ strStartsWith e "Refusing to overwrite" = true := by
    cases target with
    | regular => exact absurd rfl hk
    | symlink => exact ⟨_, rfl, strStartsWith_append _ _ _ (by decide)⟩
    | directory => exact ⟨_, rfl, strStartsWith_append _ _ _ (by decide)⟩
    | fifo => exact ⟨_, rfl, strStartsWith_append _ _ _ (by decide)⟩
    | socketFile => exact ⟨_, rfl, strStartsWith_append _ _ _ (by decide)⟩
  obtain ⟨e, he, hpre⟩ := hassert
  unfold installWrapper
  rw [hpath]
  dsimp only
  rw [he]
  exact ⟨⟨e, rfl, hpre⟩, rfl⟩

theorem installWrapper_overwrite_defense_witness :
    (∀ seg ∈ demoBinDir, isPlainSeg seg) ∧
    assertValidCloneName "demo" = .ok "demo" ∧
    ((∃ e, (installWrapper demoBinDir "demo" (some FileKind.symlink) "x").2 = .error e ∧
      strStartsWith e "Refusing to overwrite" = true) ∧
    (installWrapper demoBinDir "demo" (some FileKind.symlink) "x").1 =
      [FsOp.mkdirOp demoBinDir]) :=
  ⟨by decide, rfl,
    installWrapper_overwrite_defense demoBinDir "demo" "demo" FileKind.symlink "x"
      (by decide) rfl (by decide)⟩

/-! ## Clone paths (src/core/clone-manager.ts) -/

/-- `ClonePaths` from `src/types.ts`. -/
structure ClonePaths where
  cloneBaseDir : String
  metadataPath : String
  secretsPath : String
  runtimeDir : String
  runtimeEntryPath : String
  homeDir : String
  codexHomeDir : String
  logsDir : String
deriving Repr, DecidableEq

/-- `deriveClonePaths` from `src/core/clone-manager.ts`.  For an absolute,
normalized `rootPath`, `resolve(root, child)` with a relative child is string
concatenation with a separator. -/
def deriveClonePaths (rootPath : String) : ClonePaths :=
  let cloneBaseDir := rootPath ++ "/.codex-mirror"
  { cloneBaseDir := cloneBaseDir
    metadataPath := cloneBaseDir ++ "/clone.json"
    secretsPath := cloneBaseDir ++ "/secrets.json"
    runtimeDir := cloneBaseDir ++ "/runtime"
    runtimeEntryPath := cloneBaseDir ++ "/runtime/bin/codex"
    homeDir := cloneBaseDir ++ "/home"
    codexHomeDir := cloneBaseDir ++ "/home/.codex"
    logsDir := cloneBaseDir ++ "/logs" }

/-! ## Health diagnostics (src/core/doctor.ts) -/

/-- `AuthStatus` from `src/types.ts`. -/
inductive AuthStatus
  | loggedIn
  | notLoggedIn
  | unknown
deriving Repr, DecidableEq

/-- The error strings `Doctor.checkOne` pushes, as constructors carrying the
interpolated data. -/
inductive DoctorError
  | runtimeEntryMissing (path : String)
  | wrapperMissing (path : String)
  | missingDirectory (path : String)
  | notWritableDirectory (path : String)
  | authTimedOut (ms : Nat)
  | couldNotDetermineAuth
  | minimaxKeyMissing
  | minimaxVersionDrift (expected : String)
deriving Repr, DecidableEq

/-- `DoctorResult` from `src/types.ts`. -/
structure DoctorResult where
  name : String
  ok : Bool
  runtimePath : String
  wrapperPath : String
  authStatus : AuthStatus
  writable : Bool
  errors : List DoctorError
deriving Repr, DecidableEq

/-- The filesystem / subprocess observations `Doctor.checkOne` makes for one
clone: `isFile` probes, per-directory `exists`/`isWritable` probes, the raw
chunks the status probe produced on each stream, its `timedOut` flag, and the
MiniMax key presence probes. -/
structure DoctorEnv where
  runtimeEntryIsFile : Bool
  wrapperIsFile : Bool
  baseDirExists : Bool
  baseDirWritable : Bool
  homeDirExists : Bool
  homeDirWritable : Bool
  codexHomeExists : Bool
  codexHomeWritable : Bool
  logsDirExists : Bool
  logsDirWritable : Bool
  stdoutChunks : List (List Char)
  stderrChunks : List (List Char)
  timedOut : Bool
  secretsHaveMiniMaxKey : Bool
  shellHasMiniMaxKey : Bool
deriving Repr, DecidableEq

/-- Does `pat` occur as a contiguous substring of the second argument? -/
def charsContainSub (pat : List Char) : List Char → Bool
  | [] => pat.isEmpty
  | c :: rest => charsStartWith (c :: rest) pat || charsContainSub pat rest

/-- The case-insensitive literal regex test `/pat/i.test(hay)`. -/
def regexTestCI (pat hay : List Char) : Bool :=
  charsContainSub (pat.map Char.toLower) (hay.map Char.toLower)

def NOT_LOGGED_IN_RE : List Char := "Not logged in".data

def LOGGED_IN_RE : List Char := "Logged in".data

/-- The `Doctor` constructor default `authTimeoutMs = 5_000`. -/
def AUTH_TIMEOUT_MS : Nat := 5000

/-- `MINIMAX_RECOMMENDED_CODEX_VERSION` from `src/core/clone-template.ts`:
the runtime version the MiniMax template pins, checked by the doctor's
version-drift test. -/
def MINIMAX_RECOMMENDED_CODEX_VERSION : String := "0.57.0"

/-- `authOutput` in `Doctor.checkOne`: captured stdout, a newline, captured
stderr — both streams truncated by `runCapture` via `captureStream`. -/
def doctorAuthOutput (env : DoctorEnv) : List Char :=
  captureStream env.stdoutChunks ++ '\n' :: captureStream env.stderrChunks

/-- The directory check of `Doctor.checkOne` for one path. -/
def dirErr (p : String) (dirExists dirWritable : Bool) : List DoctorError :=
  if !dirExists then [.missingDirectory p]
  else if !dirWritable then [.notWritableDirectory p]
  else []

/-- The file/directory errors of `Doctor.checkOne`, in push order. -/
def doctorFsErrors (env : DoctorEnv) (clone : CloneRecord) : List DoctorError :=
  let paths := deriveClonePaths clone.rootPath
  (if !env.runtimeEntryIsFile then [.runtimeEntryMissing clone.runtimeEntryPath] else []) ++
  (if !env.wrapperIsFile then [.wrapperMissing clone.wrapperPath] else []) ++
  dirErr paths.cloneBaseDir env.baseDirExists env.baseDirWritable ++
  dirErr paths.homeDir env.homeDirExists env.homeDirWritable ++
  dirErr paths.codexHomeDir env.codexHomeExists env.codexHomeWritable ++
  dirErr paths.logsDir env.logsDirExists env.logsDirWritable

/-- The auth-status pattern matching of `Doctor.checkOne`:
`/Not logged in/i` first, then `/Logged in/i`, otherwise `unknown`. -/
def doctorAuthStatus (env : DoctorEnv) : AuthStatus :=
  let out := doctorAuthOutput env
  if regexTestCI NOT_LOGGED_IN_RE out then .notLoggedIn
  else if regexTestCI LOGGED_IN_RE out then .loggedIn
  else .unknown

/-- The MiniMax-template-specific errors of `Doctor.checkOne`. -/
def doctorTemplateErrors (env : DoctorEnv) (clone : CloneRecord) : List DoctorError :=
  if clone.template.getD .official = .minimax then
    (if !env.secretsHaveMiniMaxKey && !env.shellHasMiniMaxKey then
      [.minimaxKeyMissing] else []) ++
    (if clone.codexVersionPinned ≠ MINIMAX_RECOMMENDED_CODEX_VERSION then
      [.minimaxVersionDrift MINIMAX_RECOMMENDED_CODEX_VERSION] else [])
  else []

/-- All errors `Doctor.checkOne` accumulates, in push order. -/
def doctorErrors (env : DoctorEnv) (clone : CloneRecord) : List DoctorError :=
  doctorFsErrors env clone ++
  (if env.timedOut then [.authTimedOut AUTH_TIMEOUT_MS] else []) ++
  (if doctorAuthStatus env = .unknown ∧ clone.template.getD .official ≠ .minimax then
    [.couldNotDetermineAuth] else []) ++
  doctorTemplateErrors env clone

/-- The `writable` summary of `Doctor.checkOne`. -/
def doctorWritable (env : DoctorEnv) : Bool :=
  (env.baseDirExists && env.baseDirWritable) &&
  (env.homeDirExists && env.homeDirWritable) &&
  (env.codexHomeExists && env.codexHomeWritable) &&
  (env.logsDirExists && env.logsDirWritable)

/-- `Doctor.checkOne` from `src/core/doctor.ts` (`ok` is
`errors.length === 0`). -/
def checkOne (env : DoctorEnv) (clone : CloneRecord) : DoctorResult :=
  { name := clone.name
    ok := (doctorErrors env clone).isEmpty
    runtimePath := clone.runtimeEntryPath
    wrapperPath := clone.wrapperPath
    authStatus := doctorAuthStatus env
    writable := doctorWritable env
    errors := doctorErrors env clone }

/-- A doctor environment whose probe output says "Not logged in" but whose
wrapper file is missing. -/
def cxDoctorEnv : DoctorEnv :=
  { runtimeEntryIsFile := true
    wrapperIsFile := false
    baseDirExists := true
    baseDirWritable := true
    homeDirExists := true
    homeDirWritable := true
    codexHomeExists := true
    codexHomeWritable := true
    logsDirExists := true
    logsDirWritable := true
    stdoutChunks := ["Not logged in".data]
    stderrChunks := []
    timedOut := false
    secretsHaveMiniMaxKey := false
    shellHasMiniMaxKey := false }

/-- **C9** (counterexample): a clone whose status-probe output contains the
"not logged in" signal is not always reported healthy: with a missing wrapper
file the probe output still matches, `authStatus` is `notLoggedIn`, yet
`ok = false`. -/
theorem checkOne_not_logged_in_counterexample :
    regexTestCI NOT_LOGGED_IN_RE (doctorAuthOutput cxDoctorEnv) = true ∧
    (checkOne cxDoctorEnv demoClone).authStatus = AuthStatus.notLoggedIn ∧
    (checkOne cxDoctorEnv demoClone).ok = false := by decide

/-- All file/directory probes of the doctor succeed. -/
def doctorFsHealthy (env : DoctorEnv) : Prop :=
  env.runtimeEntryIsFile = true ∧ env.wrapperIsFile = true ∧
  env.baseDirExists = true ∧ env.baseDirWritable = true ∧
  env.homeDirExists = true ∧ env.homeDirWritable = true ∧
  env.codexHomeExists = true ∧ env.codexHomeWritable = true ∧
  env.logsDirExists = true ∧ env.logsDirWritable = true

instance : DecidablePred doctorFsHealthy := fun env => by
  unfold doctorFsHealthy
  infer_instance

/-- **C9** (amended): `checkOne` reports `ok` exactly when the error list is
empty; a clone all of whose file/directory checks pass, of the official
template, whose probe did not time out and whose probe output contains a
"not logged in" signal is reported healthy with `authStatus = notLoggedIn`;
and a clone whose probe times out gets a timeout error and `ok = false`, with
`authStatus = unknown` whenever the output contains neither auth signal. -/
theorem checkOne_diagnostics (env : DoctorEnv) (clone : CloneRecord) :
    ((checkOne env clone).ok = true ↔ (checkOne env clone).errors = []) ∧
    (doctorFsHealthy env → clone.template.getD .official ≠ .minimax →
      env.timedOut = false →
      regexTestCI NOT_LOGGED_IN_RE (doctorAuthOutput env) = true →
      (checkOne env clone).ok = true ∧
      (checkOne env clone).authStatus = AuthStatus.notLoggedIn) ∧
    (env.timedOut = true →
      DoctorError.authTimedOut AUTH_TIMEOUT_MS ∈ (checkOne env clone).errors ∧
      (checkOne env clone).ok = false ∧
      (regexTestCI NOT_LOGGED_IN_RE (doctorAuthOutput env) = false →
        regexTestCI LOGGED_IN_RE (doctorAuthOutput env) = false →
        (checkOne env clone).authStatus = AuthStatus.unknown)) := by
  refine ⟨?_, ?_, ?_⟩
  · show (doctorErrors env clone).isEmpty = true ↔ doctorErrors env clone = []
    exact List.isEmpty_iff
  · intro hfs hofficial htime hnot
    obtain ⟨h1, h2, h3, h4, h5, h6, h7, h8, h9, h10⟩ := hfs
    have hstatus : doctorAuthStatus env = AuthStatus.notLoggedIn := by
      unfold doctorAuthStatus
      dsimp only
      rw [hnot]
      rfl
    have herrs : doctorErrors env clone = [] := by
      unfold doctorErrors doctorFsErrors doctorTemplateErrors dirErr
      rw [hstatus]
      simp [h1, h2, h3, h4, h5, h6, h7, h8, h9, h10, htime, hofficial]
    constructor
    · show (doctorErrors env clone).isEmpty = true
      rw [herrs]
      rfl
    · show doctorAuthStatus env = AuthStatus.notLoggedIn
      exact hstatus
  · intro htime
    have hmem : DoctorError.authTimedOut AUTH_TIMEOUT_MS ∈ doctorErrors env clone := by
      unfold doctorErrors
      rw [htime]
      simp
    refine ⟨hmem, ?_, ?_⟩
    · show (doctorErrors env clone).isEmpty = false
      have hne : doctorErrors env clone ≠ [] := List.ne_nil_of_mem hmem
      rcases hl : doctorErrors env clone with _ | ⟨x, xs⟩
      · exact absurd hl hne
      · rfl
    · intro hnot hlog
      show doctorAuthStatus env = AuthStatus.unknown
      unfold doctorAuthStatus
      dsimp only
      rw [hnot, hlog]
      rfl

/-- The counterexample environment with the wrapper file present. -/
def okDoctorEnv : DoctorEnv := { cxDoctorEnv with wrapperIsFile := true }

theorem checkOne_diagnostics_witness :
    doctorFsHealthy okDoctorEnv ∧
    (checkOne okDoctorEnv demoClone).ok = true ∧
    (checkOne okDoctorEnv demoClone).authStatus = AuthStatus.notLoggedIn :=
  ⟨by decide,
   ((checkOne_diagnostics okDoctorEnv demoClone).2.1 (by decide) (by decide) rfl
      (by decide)).1,
   ((checkOne_diagnostics okDoctorEnv demoClone).2.1 (by decide) (by decide) rfl
      (by decide)).2⟩

/-! ## Registry store: atomic save (src/core/registry.ts) -/

/-- The content of a file as a reader would see it. -/
inductive FileContent
  | complete (doc : Registry)
  | partialData (raw : String)
deriving Repr, DecidableEq

/-- The slice of the filesystem that `saveUnlocked` touches: the visible
registry document and the temp file of the in-flight write. -/
structure StoreFs where
  visible : Option FileContent
  temp : Option (String × FileContent)
deriving Repr, DecidableEq

/-- Failure injection for one `saveUnlocked` run: `writeFails` makes the temp
write raise after leaving `partialRaw` behind, `renameFails` makes the rename
raise.  `tempTag` stands for the `pid`/`uuid` suffix of the temp name. -/
structure SaveEnv where
  writeFails : Bool
  partialRaw : String
  renameFails : Bool
  tempTag : String
deriving Repr, DecidableEq

/-- The temp path `` `${registryPath}.tmp-${pid}-${uuid}` ``. -/
def tempPathFor (registryPath tempTag : String) : String :=
  registryPath ++ ".tmp-" ++ tempTag

/-- `RegistryStore.saveUnlocked` from `src/core/registry.ts` as a sequence of
filesystem states: serialize the whole document, write it to the uniquely
named temp file, rename the temp over the target; on failure remove the temp
and rethrow.  Returns the trace of states a racing reader could observe, the
final state and the result. -/
def saveUnlocked (fs : StoreFs) (registryPath : String) (doc : Registry)
    (env : SaveEnv) : List StoreFs × StoreFs × Except String Unit :=
  let tempPath := tempPathFor registryPath env.tempTag
  if env.writeFails then
    let s1 : StoreFs := { fs with temp := some (tempPath, .partialData env.partialRaw) }
    let s2 : StoreFs := { s1 with temp := none }
    ([fs, s1, s2], s2, .error "write failed")
  else
    let s1 : StoreFs := { fs with temp := some (tempPath, .complete doc) }
    if env.renameFails then
      let s2 : StoreFs := { s1 with temp := none }
      ([fs, s1, s2], s2, .error "rename failed")
    else
      let s2 : StoreFs := { visible := some (.complete doc), temp := none }
      ([fs, s1, s2], s2, .ok ())

/-- **C6**: each save writes the whole serialized document to a uniquely named
temp file (a path distinct from the registry path) and renames it over the
target: every state a racing load can observe shows either the old or the new
complete document in the visible file — never partial content — and a save
that fails mid-write leaves the previous document unchanged with the temp
file deleted. -/
theorem saveUnlocked_atomic (fs : StoreFs) (registryPath : String)
    (doc : Registry) (env : SaveEnv) :
    (∀ s ∈ (saveUnlocked fs registryPath doc env).1,
      s.visible = fs.visible ∨ s.visible = some (.complete doc)) ∧
    (∀ e, (saveUnlocked fs registryPath doc env).2.2 = .error e →
      (saveUnlocked fs registryPath doc env).2.1.visible = fs.visible ∧
      (saveUnlocked fs registryPath doc env).2.1.temp = none) ∧
    tempPathFor registryPath env.tempTag ≠ registryPath := by
  refine ⟨?_, ?_, ?_⟩
  · by_cases hw : env.writeFails
    · simp [saveUnlocked, hw]
    · by_cases hr : env.renameFails
      · simp [saveUnlocked, hw, hr]
      · simp [saveUnlocked, hw, hr]
  · intro e he
    by_cases hw : env.writeFails
    · simp [saveUnlocked, hw]
    · by_cases hr : env.renameFails
      · simp [saveUnlocked, hw, hr]
      · simp [saveUnlocked, hw, hr] at he
  · intro heq
    have hlen := congrArg String.length heq
    rw [tempPathFor, String.length_append, String.length_append] at hlen
    have h5 : (".tmp-" : String).length = 5 := rfl
    rw [h5] at hlen
    omega

/-- Store state used by the save witness. -/
def cxStoreFs : StoreFs :=
  { visible := some (.complete { version := 1, clones := [] }), temp := none }

/-- Save environment (mid-write failure) used by the save witness. -/
def cxSaveEnv : SaveEnv :=
  { writeFails := true, partialRaw := "trunc", renameFails := false, tempTag := "t1" }

theorem saveUnlocked_atomic_witness :
    (saveUnlocked cxStoreFs "/gr/registry.json" { version := 1, clones := [demoClone] }
      cxSaveEnv).2.2 = .error "write failed" ∧
    ((saveUnlocked cxStoreFs "/gr/registry.json" { version := 1, clones := [demoClone] }
      cxSaveEnv).2.1.visible = cxStoreFs.visible ∧
     (saveUnlocked cxStoreFs "/gr/registry.json" { version := 1, clones := [demoClone] }
      cxSaveEnv).2.1.temp = none) :=
  ⟨rfl, (saveUnlocked_atomic cxStoreFs "/gr/registry.json"
    { version := 1, clones := [demoClone] } cxSaveEnv).2.1 "write failed" rfl⟩

/-! ## Registry store: lock acquisition (src/core/registry.ts) -/

/-- The `RegistryStore` constructor parameters that drive locking. -/
structure LockConfig where
  lockTimeoutMs : Nat
  lockPollIntervalMs : Nat
deriving Repr, DecidableEq

/-- Constructor defaults: `lockTimeoutMs = 10_000`, `lockPollIntervalMs = 40`. -/
def defaultLockConfig : LockConfig := { lockTimeoutMs := 10000, lockPollIntervalMs := 40 }

/-- `this.staleLockMs = this.lockTimeoutMs * 6`. -/
def staleLockMs (cfg : LockConfig) : Nat := cfg.lockTimeoutMs * 6

/-- What one `lstat` of the lock path reveals. -/
structure LockInfo where
  isRegular : Bool
  uid : Nat
  mtimeMs : Nat
  dev : Nat
  ino : Nat
deriving Repr, DecidableEq

/-- The external world the polling loop observes, per iteration: whether the
`O_CREAT|O_EXCL` open succeeds, the `lstat` taken by `maybeBreakStaleLock`,
and the `lstat` taken by `unlinkLockIfMatches` immediately before unlinking
(`none` = ENOENT). -/
structure LockWorld where
  openSucceeds : Nat → Bool
  lstatStale : Nat → Option LockInfo
  lstatVerify : Nat → Option LockInfo

/-- An unlink of the lock file performed by stale-lock reclamation, recording
the two observations that justified it. -/
structure UnlinkEvent where
  iter : Nat
  seen : LockInfo
  checked : LockInfo
deriving Repr, DecidableEq

inductive LockOutcome
  | acquired (iter : Nat)
  | timedOut (iter : Nat)
  | fuelExhausted
deriving Repr, DecidableEq

/-- `isOwnedByCurrentUser` from `src/core/registry.ts` (`myUid = none` models
`process.getuid` being unavailable, which counts as owned). -/
def isOwnedByCurrentUser (myUid : Option Nat) (uid : Nat) : Bool :=
  match myUid with
  | none => true
  | some u => u = uid

/-- `RegistryStore.unlinkLockIfMatches` from `src/core/registry.ts`: re-`lstat`
the lock path and unlink only if it is still a regular file with the same
device/inode identity as previously observed. -/
def unlinkLockIfMatches (w : LockWorld) (i : Nat) (identity : LockInfo) :
    List UnlinkEvent :=
  match w.lstatVerify i with
  | none => []
  | some cur =>
    if !cur.isRegular then []
    else if cur.dev ≠ identity.dev ∨ cur.ino ≠ identity.ino then []
    else [⟨i, identity, cur⟩]

/-- `RegistryStore.maybeBreakStaleLock` from `src/core/registry.ts`: reclaim
only a regular, own-user lock older than `staleLockMs`. -/
def maybeBreakStaleLock (cfg : LockConfig) (myUid : Option Nat) (w : LockWorld)
    (i now : Nat) : List UnlinkEvent :=
  match w.lstatStale i with
  | none => []
  | some info =>
    if !info.isRegular then []
    else if !isOwnedByCurrentUser myUid info.uid then []
    else if now - info.mtimeMs > staleLockMs cfg then unlinkLockIfMatches w i info
    else []

/-- The polling loop of `RegistryStore.acquireLock`, with the wall clock
modelled as `iteration * lockPollIntervalMs` (acquisition starts at time 0,
so `deadline = lockTimeoutMs`): try the exclusive open; past the deadline, try
stale-lock reclamation; past `deadline + staleLockMs`, fail with the timeout
error.  `fuel` bounds the recursion; the unlink events of the whole run are
collected alongside the outcome. -/
def acquireLoop (cfg : LockConfig) (myUid : Option Nat) (w : LockWorld) :
    Nat → Nat → List UnlinkEvent × LockOutcome
  | 0, _ => ([], .fuelExhausted)
  | fuel + 1, i =>
    if w.openSucceeds i then ([], .acquired i)
    else
      let now := i * cfg.lockPollIntervalMs
      let evs := if now > cfg.lockTimeoutMs then maybeBreakStaleLock cfg myUid w i now
        else []
      if now > cfg.lockTimeoutMs + staleLockMs cfg then (evs, .timedOut i)
      else
        let r := acquireLoop cfg myUid w fuel (i + 1)
        (evs ++ r.1, r.2)

/-- `RegistryStore.acquireLock`, starting at time 0. -/
def acquireLock (cfg : LockConfig) (myUid : Option Nat) (w : LockWorld)
    (fuel : Nat) : List UnlinkEvent × LockOutcome :=
  acquireLoop cfg myUid w fuel 0

theorem maybeBreakStaleLock_mem (cfg : LockConfig) (myUid : Option Nat)
    (w : LockWorld) (i now : Nat) (e : UnlinkEvent)
    (he : e ∈ maybeBreakStaleLock cfg myUid w i now) :
    e.iter = i ∧ e.seen.isRegular = true ∧
    isOwnedByCurrentUser myUid e.seen.uid = true ∧
    now - e.seen.mtimeMs > staleLockMs cfg ∧
    w.lstatVerify i = some e.checked ∧ e.checked.isRegular = true ∧
    e.checked.dev = e.seen.dev ∧ e.checked.ino = e.seen.ino := by
  unfold maybeBreakStaleLock at he
  rcases hls : w.lstatStale i with _ | info
  · rw [hls] at he
    simp at he
  · rw [hls] at he
    dsimp only at he
    split at he
    · exact absurd he (List.not_mem_nil e)
    · next hreg =>
      split at he
      · exact absurd he (List.not_mem_nil e)
      · next howned =>
        split at he
        · next hstale =>
          have hreg2 : info.isRegular = true := by
            revert hreg
            cases info.isRegular <;> simp
          have howned2 : isOwnedByCurrentUser myUid info.uid = true := by
            revert howned
            cases isOwnedByCurrentUser myUid info.uid <;> simp
          unfold unlinkLockIfMatches at he
          rcases hlv : w.lstatVerify i with _ | cur
          · rw [hlv] at he
            simp at he
          · rw [hlv] at he
            dsimp only at he
            split at he
            · exact absurd he (List.not_mem_nil e)
            · next hcreg =>
              split at he
              · exact absurd he (List.not_mem_nil e)
              · next hid =>
                have hcreg2 : cur.isRegular = true := by
                  revert hcreg
                  cases cur.isRegular <;> simp
                push_neg at hid
                rw [List.mem_singleton] at he
                subst he
                exact ⟨rfl, hreg2, howned2, hstale, rfl, hcreg2, hid.1, hid.2⟩
        · exact absurd he (List.not_mem_nil e)

theorem acquireLoop_unlink_safety (cfg : LockConfig) (myUid : Option Nat)
    (w : LockWorld) :
    ∀ fuel i e, e ∈ (acquireLoop cfg myUid w fuel i).1 →
      e.seen.isRegular = true ∧ isOwnedByCurrentUser myUid e.seen.uid = true ∧
      e.iter * cfg.lockPollIntervalMs > cfg.lockTimeoutMs ∧
      e.iter * cfg.lockPollIntervalMs - e.seen.mtimeMs > staleLockMs cfg ∧
      w.lstatVerify e.iter = some e.checked ∧ e.checked.isRegular = true ∧
      e.checked.dev = e.seen.dev ∧ e.checked.ino = e.seen.ino := by
  intro fuel
  induction fuel with
  | zero =>
    intro i e he
    exact absurd he (List.not_mem_nil e)
  | succ fuel ih =>
    intro i e he
    unfold acquireLoop at he
    by_cases hopen : w.openSucceeds i
    · rw [if_pos hopen] at he
      exact absurd he (List.not_mem_nil e)
    · rw [if_neg hopen] at he
      dsimp only at he
      by_cases hdl : i * cfg.lockPollIntervalMs > cfg.lockTimeoutMs
      · rw [if_pos hdl] at he
        by_cases hhard : i * cfg.lockPollIntervalMs >
            cfg.lockTimeoutMs + staleLockMs cfg
        · rw [if_pos hhard] at he
          obtain ⟨hiter, hreg, howned, hstale, hver, hcreg, hdev, hino⟩ :=
            maybeBreakStaleLock_mem cfg myUid w i _ e he
          rw [hiter]
          exact ⟨hreg, howned, hdl, hstale, hver, hcreg, hdev, hino⟩
        · rw [if_neg hhard] at he
          dsimp only at he
          rcases List.mem_append.mp he with hmem | hmem
          · obtain ⟨hiter, hreg, howned, hstale, hver, hcreg, hdev, hino⟩ :=
              maybeBreakStaleLock_mem cfg myUid w i _ e hmem
            rw [hiter]
            exact ⟨hreg, howned, hdl, hstale, hver, hcreg, hdev, hino⟩
          · exact ih (i + 1) e hmem
      · rw [if_neg hdl] at he
        by_cases hhard : i * cfg.lockPollIntervalMs >
            cfg.lockTimeoutMs + staleLockMs cfg
        · rw [if_pos hhard] at he
          exact absurd he (List.not_mem_nil e)
        · rw [if_neg hhard] at he
          dsimp only at he
          rcases List.mem_append.mp he with hmem | hmem
          · exact absurd hmem (List.not_mem_nil e)
          · exact ih (i + 1) e hmem

theorem acquireLoop_timeout (cfg : LockConfig) (myUid : Option Nat)
    (w : LockWorld) (hP : 0 < cfg.lockPollIntervalMs)
    (hopen : ∀ i, w.openSucceeds i = false) :
    ∀ fuel i, 1 ≤ fuel →
      7 * cfg.lockTimeoutMs / cfg.lockPollIntervalMs + 2 ≤ fuel + i →
      ∃ j, (acquireLoop cfg myUid w fuel i).2 = .timedOut j := by
  intro fuel
  induction fuel with
  | zero =>
    intro i h1 _
    exact absurd h1 (by omega)
  | succ fuel ih =>
    intro i _ hbound
    unfold acquireLoop
    rw [if_neg (by rw [hopen i]; exact Bool.false_ne_true)]
    dsimp only
    by_cases hhard : i * cfg.lockPollIntervalMs > cfg.lockTimeoutMs + staleLockMs cfg
    · rw [if_pos hhard]
      exact ⟨i, rfl⟩
    · rw [if_neg hhard]
      dsimp only
      have hle : i * cfg.lockPollIntervalMs ≤ 7 * cfg.lockTimeoutMs := by
        have hst : staleLockMs cfg = cfg.lockTimeoutMs * 6 := rfl
        omega
      have hidiv : i ≤ 7 * cfg.lockTimeoutMs / cfg.lockPollIntervalMs :=
        (Nat.le_div_iff_mul_le hP).mpr hle
      have key : 1 ≤ fuel ∧
          7 * cfg.lockTimeoutMs / cfg.lockPollIntervalMs + 2 ≤ fuel + (i + 1) := by
        revert hbound hidiv
        generalize 7 * cfg.lockTimeoutMs / cfg.lockPollIntervalMs = N
        intro hbound hidiv
        omega
      exact ih (i + 1) key.1 key.2

/-- **C5**: stale-lock reclamation unlinks the existing lock file only when
the `lstat` past the poll deadline saw a regular file owned by the current
user and older than `staleLockMs` (6× the acquisition timeout), with the
device/inode identity re-verified by a second `lstat` immediately before the
unlink; when the exclusive open never succeeds the loop fails with the
lock-timeout outcome within a bounded number of poll iterations (the extended
hard deadline `timeout + staleLockMs`) instead of waiting indefinitely; and
the default configuration polls every 40 ms with the stale threshold six
times the 10 s timeout. -/
theorem acquireLock_stale_safety :
    (∀ (cfg : LockConfig) (myUid : Option Nat) (w : LockWorld) (fuel i : Nat)
      (e : UnlinkEvent), e ∈ (acquireLoop cfg myUid w fuel i).1 →
      e.seen.isRegular = true ∧ isOwnedByCurrentUser myUid e.seen.uid = true ∧
      e.iter * cfg.lockPollIntervalMs > cfg.lockTimeoutMs ∧
      e.iter * cfg.lockPollIntervalMs - e.seen.mtimeMs > staleLockMs cfg ∧
      w.lstatVerify e.iter = some e.checked ∧ e.checked.isRegular = true ∧
      e.checked.dev = e.seen.dev ∧ e.checked.ino = e.seen.ino) ∧
    (∀ (cfg : LockConfig) (myUid : Option Nat) (w : LockWorld),
      0 < cfg.lockPollIntervalMs → (∀ i, w.openSucceeds i = false) →
      ∀ fuel, 7 * cfg.lockTimeoutMs / cfg.lockPollIntervalMs + 2 ≤ fuel →
      ∃ j, (acquireLock cfg myUid w fuel).2 = .timedOut j) ∧
    defaultLockConfig.lockPollIntervalMs = 40 ∧
    staleLockMs defaultLockConfig = 6 * defaultLockConfig.lockTimeoutMs := by
  refine ⟨?_, ?_, rfl, rfl⟩
  · intro cfg myUid w fuel i e he
    exact acquireLoop_unlink_safety cfg myUid w fuel i e he
  · intro cfg myUid w hP hopen fuel hfuel
    have key : 1 ≤ fuel ∧
        7 * cfg.lockTimeoutMs / cfg.lockPollIntervalMs + 2 ≤ fuel + 0 := by
      revert hfuel
      generalize 7 * cfg.lockTimeoutMs / cfg.lockPollIntervalMs = N
      intro hfuel
      omega
    exact acquireLoop_timeout cfg myUid w hP hopen fuel 0 key.1 key.2

/-- Lock file observation used by the lock witness. -/
def cxLockInfo : LockInfo := { isRegular := true, uid := 7, mtimeMs := 0, dev := 1, ino := 5 }

/-- World used by the lock witness: the open never succeeds and every `lstat`
sees the same stale lock file. -/
def cxLockWorld : LockWorld :=
  { openSucceeds := fun _ => false
    lstatStale := fun _ => some cxLockInfo
    lstatVerify := fun _ => some cxLockInfo }

/-- Config used by the lock witness. -/
def cxLockConfig : LockConfig := { lockTimeoutMs := 0, lockPollIntervalMs := 1 }

/-- The unlink event the witness run performs. -/
def cxUnlinkEvent : UnlinkEvent := { iter := 1, seen := cxLockInfo, checked := cxLockInfo }

theorem acquireLock_stale_safety_witness :
    cxUnlinkEvent ∈ (acquireLoop cxLockConfig (some 7) cxLockWorld 2 0).1 ∧
    (cxUnlinkEvent.seen.isRegular = true ∧
      isOwnedByCurrentUser (some 7) cxUnlinkEvent.seen.uid = true ∧
      cxUnlinkEvent.iter * cxLockConfig.lockPollIntervalMs > cxLockConfig.lockTimeoutMs ∧
      cxUnlinkEvent.iter * cxLockConfig.lockPollIntervalMs - cxUnlinkEvent.seen.mtimeMs >
        staleLockMs cxLockConfig ∧
      cxLockWorld.lstatVerify cxUnlinkEvent.iter = some cxUnlinkEvent.checked ∧
      cxUnlinkEvent.checked.isRegular = true ∧
      cxUnlinkEvent.checked.dev = cxUnlinkEvent.seen.dev ∧
      cxUnlinkEvent.checked.ino = cxUnlinkEvent.seen.ino) :=
  ⟨by decide,
   acquireLock_stale_safety.1 cxLockConfig (some 7) cxLockWorld 2 0 cxUnlinkEvent
     (by decide)⟩

/-! ## Clone lifecycle manager (src/core/clone-manager.ts)

The manager's effects are modelled on a `DiskState` holding the registry
list and the files/directories the transactions touch; each effectful step
and rollback step can be told to fail through an environment record, so the
rollback behaviour of `createClone`, `updateClone` and `removeClone` can be
verified on all paths. -/

/-- Association list lookup (first match). -/
def assocGet {α : Type} : List (String × α) → String → Option α
  | [], _ => none
  | kv :: rest, k => if kv.1 = k then some kv.2 else assocGet rest k

/-- Association list update (replace first match or append). -/
def assocSet {α : Type} : List (String × α) → String → α → List (String × α)
  | [], k, v => [(k, v)]
  | kv :: rest, k, v => if kv.1 = k then (k, v) :: rest else kv :: assocSet rest k v

/-- Association list removal. -/
def assocErase {α : Type} : List (String × α) → String → List (String × α)
  | [], _ => []
  | kv :: rest, k => if kv.1 = k then assocErase rest k else kv :: assocErase rest k

theorem assocGet_set_self {α : Type} (l : List (String × α)) (k : String) (v : α) :
    assocGet (assocSet l k v) k = some v := by
  induction l with
  | nil => simp [assocSet, assocGet]
  | cons kv rest ih =>
    by_cases hk : kv.1 = k
    · simp [assocSet, assocGet, hk]
    · simp [assocSet, assocGet, hk, ih]

theorem assocGet_erase_self {α : Type} (l : List (String × α)) (k : String) :
    assocGet (assocErase l k) k = none := by
  induction l with
  | nil => rfl
  | cons kv rest ih =>
    by_cases hk : kv.1 = k
    · simp [assocErase, hk, ih]
    · simp [assocErase, assocGet, hk, ih]

/-- The pure list part of `RegistryStore.findByName` (first name match). -/
def findByName : List CloneRecord → String → Option CloneRecord
  | [], _ => none
  | e :: rest, name => if e.name = name then some e else findByName rest name

/-- The pure list part of `RegistryStore.upsert`: replace the first record
with the same name, or append. -/
def registryUpsert : List CloneRecord → CloneRecord → List CloneRecord
  | [], c => [c]
  | e :: rest, c => if e.name = c.name then c :: rest else e :: registryUpsert rest c

/-- The pure list part of `RegistryStore.removeByName`: drop the first record
with the given name and return it. -/
def registryRemoveByName : List CloneRecord → String → List CloneRecord × Option CloneRecord
  | [], _ => ([], none)
  | e :: rest, name =>
    if e.name = name then (rest, some e)
    else
      let r := registryRemoveByName rest name
      (e :: r.1, r.2)

theorem findByName_upsert_self (l : List CloneRecord) (c : CloneRecord) :
    findByName (registryUpsert l c) c.name = some c := by
  induction l with
  | nil => simp [registryUpsert, findByName]
  | cons e rest ih =>
    by_cases he : e.name = c.name
    · simp [registryUpsert, findByName, he]
    · simp [registryUpsert, findByName, he, ih]

theorem findByName_name (l : List CloneRecord) (name : String) (r : CloneRecord)
    (h : findByName l name = some r) : r.name = name := by
  induction l with
  | nil => exact absurd h (by simp [findByName])
  | cons e rest ih =>
    by_cases he : e.name = name
    · rw [findByName, if_pos he] at h
      cases h
      exact he
    · rw [findByName, if_neg he] at h
      exact ih h

/-- Is `p` the path `root` itself or a path inside the directory `root`? -/
def underPath (root p : String) : Bool := p = root || strStartsWith p (root ++ "/")

/-- The slice of system state the clone manager mutates. -/
structure DiskState where
  registry : List CloneRecord
  dirs : List String
  metadata : List (String × CloneRecord)
  secretsFiles : List String
  wrappers : List String
  runtimes : List (String × String)
  backups : List (String × String)
deriving Repr, DecidableEq

/-- `removePath` (recursive, forced removal) applied to the modelled state:
everything at or under `root` disappears. -/
def removeTree (st : DiskState) (root : String) : DiskState :=
  { st with
    dirs := st.dirs.filter (fun d => !underPath root d)
    metadata := st.metadata.filter (fun kv => !underPath root kv.1)
    secretsFiles := st.secretsFiles.filter (fun p => !underPath root p)
    runtimes := st.runtimes.filter (fun kv => !underPath root kv.1)
    backups := st.backups.filter (fun kv => !underPath root kv.1) }

/-- The error shapes `CloneManager` throws: plain errors, and the composite
error built by `buildTransactionError` (operation, clone name, root cause,
semicolon-collected rollback failures). -/
inductive CMError
  | plain (msg : String)
  | transaction (operation : String) (cloneName : String) (rootCause : String)
      (rollbackErrors : List String)
deriving Repr, DecidableEq

/-- `CreateCloneOptions` from `src/core/clone-manager.ts` (template already
parsed). -/
structure CreateCloneOptions where
  name : String
  rootPath : String
  template : CloneTemplate
  minimaxApiKey : Option String
deriving Repr, DecidableEq

/-- Collaborator outputs and failure injection for one `createClone` run. -/
structure CreateEnv where
  templateDefaultArgs : Option (List String)
  runtimeFails : Bool
  runtimeEntry : String
  runtimeKind : RuntimeKind
  runtimeVersion : String
  runtimeContent : String
  wrapperFails : Bool
  metadataFails : Bool
  upsertFails : Bool
  rbRegistryFails : Bool
  rbWrapperFails : Bool
  rbDirFails : Bool
  newId : String
  now : String
deriving Repr, DecidableEq

/-- The `catch` block of `createClone`: undo the registry entry (if written),
the wrapper (if installed), then the whole clone directory tree (if any state
was written), collecting rollback-step failures instead of rethrowing. -/
def createRollback (st : DiskState) (name : String) (paths : ClonePaths)
    (env : CreateEnv)
    (registryWritten wrapperInstalled rollbackCloneBase metadataWritten : Bool)
    (rootCause : String) : DiskState × CMError :=
  let step1 : DiskState × List String :=
    if registryWritten then
      if env.rbRegistryFails then (st, ["registry rollback failed"])
      else ({ st with registry := (registryRemoveByName st.registry name).1 }, [])
    else (st, [])
  let step2 : DiskState × List String :=
    if wrapperInstalled then
      if env.rbWrapperFails then (step1.1, step1.2 ++ ["wrapper rollback failed"])
      else ({ step1.1 with
        wrappers := step1.1.wrappers.filter (fun w => !(w = name)) }, step1.2)
    else step1
  let step3 : DiskState × List String :=
    if rollbackCloneBase || metadataWritten then
      if env.rbDirFails then (step2.1, step2.2 ++ ["clone directory rollback failed"])
      else (removeTree step2.1 paths.cloneBaseDir, step2.2)
    else step2
  (step3.1, .transaction "create" name rootCause step3.2)

/-- `CloneManager.createClone` from `src/core/clone-manager.ts`: validate the
name, reject an existing name or an occupied root path, create the isolated
directory tree, apply the template, install the runtime, assemble the record,
install the wrapper, persist optional template secrets, write the clone-local
metadata, upsert into the registry; on failure run `createRollback` with the
step-completion flags accumulated so far. -/
def createClone (st : DiskState) (binDir : String) (opts : CreateCloneOptions)
    (env : CreateEnv) : DiskState × Except CMError CloneRecord :=
  match assertValidCloneName opts.name with
  | .error e => (st, .error (.plain e))
  | .ok name =>
    if (findByName st.registry name).isSome then
      (st, .error (.plain ("Clone already exists: " ++ name)))
    else
      let paths := deriveClonePaths opts.rootPath
      if (assocGet st.metadata paths.metadataPath).isSome then
        (st, .error (.plain ("Root path already contains a clone: " ++ opts.rootPath)))
      else
        let st1 := { st with dirs := st.dirs ++
          [paths.cloneBaseDir, paths.homeDir, paths.codexHomeDir, paths.logsDir] }
        if env.runtimeFails then
          let r := createRollback st1 name paths env false false true false
            "runtime install failed"
          (r.1, .error r.2)
        else
          let st2 := { st1 with
            runtimes := assocSet st1.runtimes paths.runtimeDir env.runtimeContent }
          let clone : CloneRecord :=
            { id := env.newId
              name := name
              template := some opts.template
              rootPath := opts.rootPath
              runtimePath := paths.runtimeDir
              runtimeEntryPath := env.runtimeEntry
              runtimeKind := env.runtimeKind
              wrapperPath := binDir ++ "/" ++ name
              codexVersionPinned := env.runtimeVersion
              defaultCodexArgs := env.templateDefaultArgs
              createdAt := env.now
              updatedAt := env.now }
          if env.wrapperFails then
            let r := createRollback st2 name paths env false false true false
              "wrapper install failed"
            (r.1, .error r.2)
          else
            let st3 := { st2 with wrappers := st2.wrappers ++ [name] }
            let st4 := if opts.template = .minimax ∧ opts.minimaxApiKey.isSome then
                { st3 with secretsFiles := st3.secretsFiles ++ [paths.secretsPath] }
              else st3
            if env.metadataFails then
              let r := createRollback st4 name paths env false true true false
                "metadata write failed"
              (r.1, .error r.2)
            else
              let st5 := { st4 with
                metadata := assocSet st4.metadata paths.metadataPath clone }
              if env.upsertFails then
                let r := createRollback st5 name paths env false true true true
                  "registry upsert failed"
                (r.1, .error r.2)
              else
                let st6 := { st5 with registry := registryUpsert st5.registry clone }
                (st6, .ok clone)

theorem createRollback_wrapper_case (st : DiskState) (name : String)
    (paths : ClonePaths) (env : CreateEnv) (rootCause : String)
    (hrb3 : env.rbDirFails = false) :
    createRollback st name paths env false false true false rootCause =
      (removeTree st paths.cloneBaseDir, .transaction "create" name rootCause []) := by
  unfold createRollback
  simp [hrb3]

/-- **C2**: when wrapper installation fails during `createClone` (and the
rollback steps succeed), the operation returns the composite create
transaction error with an empty rollback-failure list, the registry does not
contain a clone with the requested name afterwards, and nothing at or under
the clone's base directory exists on disk. -/
theorem createClone_wrapper_failure_rollback (st : DiskState) (binDir : String)
    (opts : CreateCloneOptions) (env : CreateEnv) (name : String)
    (hname : assertValidCloneName opts.name = .ok name)
    (hnew : findByName st.registry name = none)
    (hmeta : assocGet st.metadata (deriveClonePaths opts.rootPath).metadataPath = none)
    (hrt : env.runtimeFails = false)
    (hw : env.wrapperFails = true)
    (hrb1 : env.rbRegistryFails = false) (hrb2 : env.rbWrapperFails = false)
    (hrb3 : env.rbDirFails = false) :
    (createClone st binDir opts env).2 =
      .error (.transaction "create" name "wrapper install failed" []) ∧
    findByName (createClone st binDir opts env).1.registry name = none ∧
    (∀ d ∈ (createClone st binDir opts env).1.dirs,
      underPath (deriveClonePaths opts.rootPath).cloneBaseDir d = false) := by
  unfold createClone
  rw [hname]
  dsimp only
  rw [hnew]
  rw [if_neg (by simp)]
  rw [hmeta]
  rw [if_neg (by simp)]
  rw [hrt]
  rw [if_neg (by simp)]
  rw [hw]
  rw [if_pos rfl]
  rw [createRollback_wrapper_case _ _ _ _ _ hrb3]
  refine ⟨rfl, ?_, ?_⟩
  · exact hnew
  · intro d hd
    replace hd : d ∈ List.filter
        (fun d => !underPath (deriveClonePaths opts.rootPath).cloneBaseDir d)
        (st.dirs ++ [(deriveClonePaths opts.rootPath).cloneBaseDir,
          (deriveClonePaths opts.rootPath).homeDir,
          (deriveClonePaths opts.rootPath).codexHomeDir,
          (deriveClonePaths opts.rootPath).logsDir]) := hd
    have hp := List.of_mem_filter hd
    simpa using hp

/-- Empty disk state used by manager witnesses. -/
def cxCreateState : DiskState :=
  { registry := [], dirs := [], metadata := [], secretsFiles := [], wrappers := [],
    runtimes := [], backups := [] }

/-- Create options used by the create witness. -/
def cxCreateOpts : CreateCloneOptions :=
  { name := "demo", rootPath := "/work/demo", template := .official,
    minimaxApiKey := none }

/-- Create environment (wrapper install fails, rollback succeeds) used by the
create witness. -/
def cxCreateEnv : CreateEnv :=
  { templateDefaultArgs := none
    runtimeFails := false
    runtimeEntry := "/work/demo/.codex-mirror/runtime/bin/codex"
    runtimeKind := .binary
    runtimeVersion := "0.1.0"
    runtimeContent := "rt1"
    wrapperFails := true
    metadataFails := false
    upsertFails := false
    rbRegistryFails := false
    rbWrapperFails := false
    rbDirFails := false
    newId := "id-1"
    now := "2026-01-01T00:00:00.000Z" }

theorem createClone_wrapper_failure_rollback_witness :
    assertValidCloneName "demo" = .ok "demo" ∧
    ((createClone cxCreateState "/bin" cxCreateOpts cxCreateEnv).2 =
      .error (.transaction "create" "demo" "wrapper install failed" []) ∧
    findByName (createClone cxCreateState "/bin" cxCreateOpts cxCreateEnv).1.registry
      "demo" = none ∧
    (∀ d ∈ (createClone cxCreateState "/bin" cxCreateOpts cxCreateEnv).1.dirs,
      underPath (deriveClonePaths "/work/demo").cloneBaseDir d = false)) :=
  ⟨rfl, createClone_wrapper_failure_rollback cxCreateState "/bin" cxCreateOpts
    cxCreateEnv "demo" rfl rfl rfl rfl rfl rfl rfl rfl⟩

/-- Collaborator outputs and failure injection for one `updateClone` run. -/
structure UpdateEnv where
  runtimeFails : Bool
  runtimeEntry : String
  runtimeKind : RuntimeKind
  runtimeVersion : String
  runtimeContent : String
  wrapperFails : Bool
  metadataFails : Bool
  upsertFails : Bool
  rbRuntimeFails : Bool
  rbWrapperFails : Bool
  rbMetadataFails : Bool
  rbRegistryFails : Bool
  backupTag : String
  now : String
deriving Repr, DecidableEq

/-- The `catch` block of `updateClone`: restore the runtime directory from the
backup, reinstall the wrapper for the previous record, rewrite the previous
metadata, re-upsert the previous record, then remove the backup regardless of
rollback outcome (its own failure is swallowed). -/
def updateRollback (st : DiskState) (cloneName : String) (previous : CloneRecord)
    (backupPath : String) (backupExists : Bool) (env : UpdateEnv)
    (rootCause : String) : DiskState × CMError :=
  let step1 : DiskState × List String :=
    if backupExists then
      if env.rbRuntimeFails then (st, ["runtime rollback failed"])
      else
        ({ st with runtimes :=
          match assocGet st.backups backupPath with
          | some content =>
            assocSet (assocErase st.runtimes previous.runtimePath)
              previous.runtimePath content
          | none => assocErase st.runtimes previous.runtimePath }, [])
    else (st, [])
  let step2 : DiskState × List String :=
    if env.rbWrapperFails then (step1.1, step1.2 ++ ["wrapper rollback failed"])
    else ({ step1.1 with wrappers := step1.1.wrappers ++ [cloneName] }, step1.2)
  let step3 : DiskState × List String :=
    if env.rbMetadataFails then (step2.1, step2.2 ++ ["metadata rollback failed"])
    else
      ({ step2.1 with
          metadata := assocSet step2.1.metadata
              (deriveClonePaths previous.rootPath).metadataPath previous },
        step2.2)
  let step4 : DiskState × List String :=
    if env.rbRegistryFails then (step3.1, step3.2 ++ ["registry rollback failed"])
    else ({ step3.1 with registry := registryUpsert step3.1.registry previous }, step3.2)
  let step5 : DiskState :=
    if backupExists then { step4.1 with backups := assocErase step4.1.backups backupPath }
    else step4.1
  (step5, .transaction "update" cloneName rootCause step4.2)

/-- `CloneManager.updateClone` from `src/core/clone-manager.ts`: snapshot the
current record, back the runtime directory up under a unique name, install a
fresh runtime, reinstall the wrapper, persist updated metadata and registry
entry, then delete the backup; on failure run `updateRollback`. -/
def updateClone (st : DiskState) (binDir : String) (name : String)
    (env : UpdateEnv) : DiskState × Except CMError CloneRecord :=
  match assertValidCloneName name with
  | .error e => (st, .error (.plain e))
  | .ok cloneName =>
    match findByName st.registry cloneName with
    | none => (st, .error (.plain ("Clone not found: " ++ cloneName)))
    | some current =>
      let previous := current
      let backupPath := current.runtimePath ++ ".backup-" ++ env.backupTag
      let backupExists := (assocGet st.runtimes current.runtimePath).isSome
      let st1 :=
        match assocGet st.runtimes current.runtimePath with
        | some content => { st with backups := assocSet st.backups backupPath content }
        | none => st
      if env.runtimeFails then
        let st1x := { st1 with runtimes := assocErase st1.runtimes current.runtimePath }
        let r := updateRollback st1x cloneName previous backupPath backupExists env
          "runtime install failed"
        (r.1, .error r.2)
      else
        let st2 := { st1 with
          runtimes := assocSet st1.runtimes current.runtimePath env.runtimeContent }
        let updated : CloneRecord := { current with
          runtimeEntryPath := env.runtimeEntry
          runtimeKind := env.runtimeKind
          codexVersionPinned := env.runtimeVersion
          updatedAt := env.now }
        if env.wrapperFails then
          let r := updateRollback st2 cloneName previous backupPath backupExists env
            "wrapper install failed"
          (r.1, .error r.2)
        else
          let updated2 := { updated with wrapperPath := binDir ++ "/" ++ cloneName }
          let st3 := { st2 with wrappers := st2.wrappers ++ [cloneName] }
          if env.metadataFails then
            let r := updateRollback st3 cloneName previous backupPath backupExists env
              "metadata write failed"
            (r.1, .error r.2)
          else
            let st4 := { st3 with
              metadata := assocSet st3.metadata
                  (deriveClonePaths current.rootPath).metadataPath updated2 }
            if env.upsertFails then
              let r := updateRollback st4 cloneName previous backupPath backupExists env
                "registry upsert failed"
              (r.1, .error r.2)
            else
              let st5 := { st4 with registry := registryUpsert st4.registry updated2 }
              let st6 := if backupExists then
                  { st5 with backups := assocErase st5.backups backupPath }
                else st5
              (st6, .ok updated2)

theorem updateRollback_all_ok (st : DiskState) (cloneName : String)
    (previous : CloneRecord) (backupPath : String) (env : UpdateEnv)
    (rootCause : String)
    (hrb1 : env.rbRuntimeFails = false) (hrb2 : env.rbWrapperFails = false)
    (hrb3 : env.rbMetadataFails = false) (hrb4 : env.rbRegistryFails = false) :
    updateRollback st cloneName previous backupPath true env rootCause =
      ({ st with
          runtimes :=
            (match assocGet st.backups backupPath with
            | some content => assocSet (assocErase st.runtimes previous.runtimePath)
                previous.runtimePath content
            | none => assocErase st.runtimes previous.runtimePath)
          wrappers := st.wrappers ++ [cloneName]
          metadata := assocSet st.metadata
            (deriveClonePaths previous.rootPath).metadataPath previous
          registry := registryUpsert st.registry previous
          backups := assocErase st.backups backupPath },
        .transaction "update" cloneName rootCause []) := by
  unfold updateRollback
  simp [hrb1, hrb2, hrb3, hrb4]

theorem updateRollback_backups (st : DiskState) (cloneName : String)
    (previous : CloneRecord) (backupPath : String) (env : UpdateEnv)
    (rootCause : String) :
    (updateRollback st cloneName previous backupPath true env rootCause).1.backups =
      assocErase st.backups backupPath := by
  unfold updateRollback
  dsimp only
  split_ifs <;> first | rfl | (exfalso; simp_all)

theorem updateClone_wrapper_failure_state (st : DiskState) (binDir : String)
    (name : String) (env : UpdateEnv) (cloneName : String) (r : CloneRecord)
    (vOld : String)
    (hname : assertValidCloneName name = .ok cloneName)
    (hfound : findByName st.registry cloneName = some r)
    (hrtc : assocGet st.runtimes r.runtimePath = some vOld)
    (hrtf : env.runtimeFails = false)
    (hwf : env.wrapperFails = true) :
    updateClone st binDir name env =
      ((updateRollback
          { st with
              backups := assocSet st.backups
                (r.runtimePath ++ ".backup-" ++ env.backupTag) vOld
              runtimes := assocSet st.runtimes r.runtimePath env.runtimeContent }
          cloneName r (r.runtimePath ++ ".backup-" ++ env.backupTag) true env
          "wrapper install failed").1,
        .error (updateRollback
          { st with
              backups := assocSet st.backups
                (r.runtimePath ++ ".backup-" ++ env.backupTag) vOld
              runtimes := assocSet st.runtimes r.runtimePath env.runtimeContent }
          cloneName r (r.runtimePath ++ ".backup-" ++ env.backupTag) true env
          "wrapper install failed").2) := by
  unfold updateClone
  rw [hname]
  dsimp only
  rw [hfound]
  dsimp only
  rw [hrtc]
  dsimp only [Option.isSome]
  rw [hrtf]
  rw [if_neg (by simp)]
  rw [hwf]
  rw [if_pos rfl]

/-- **C3**: when wrapper installation fails during `updateClone` (and the
rollback steps succeed), the operation returns the composite update
transaction error with an empty rollback-failure list; afterwards the
registry entry and the clone-local metadata file both hold the previous
record (hence the previous pinned runtime version), the runtime directory
holds its pre-update content again (restored from the backup), and the backup
is gone — and the backup is removed even when the rollback steps fail. -/
theorem updateClone_wrapper_failure_rollback (st : DiskState) (binDir : String)
    (name : String) (env : UpdateEnv) (cloneName : String) (r : CloneRecord)
    (vOld : String)
    (hname : assertValidCloneName name = .ok cloneName)
    (hfound : findByName st.registry cloneName = some r)
    (hrtc : assocGet st.runtimes r.runtimePath = some vOld)
    (hrtf : env.runtimeFails = false)
    (hwf : env.wrapperFails = true)
    (hrb1 : env.rbRuntimeFails = false) (hrb2 : env.rbWrapperFails = false)
    (hrb3 : env.rbMetadataFails = false) (hrb4 : env.rbRegistryFails = false) :
    (updateClone st binDir name env).2 =
      .error (.transaction "update" cloneName "wrapper install failed" []) ∧
    findByName (updateClone st binDir name env).1.registry cloneName = some r ∧
    assocGet (updateClone st binDir name env).1.metadata
      (deriveClonePaths r.rootPath).metadataPath = some r ∧
    assocGet (updateClone st binDir name env).1.runtimes r.runtimePath = some vOld ∧
    assocGet (updateClone st binDir name env).1.backups
      (r.runtimePath ++ ".backup-" ++ env.backupTag) = none ∧
    (∀ env' : UpdateEnv, env'.runtimeFails = false → env'.wrapperFails = true →
      assocGet (updateClone st binDir name env').1.backups
        (r.runtimePath ++ ".backup-" ++ env'.backupTag) = none) := by
  have hmain := updateClone_wrapper_failure_state st binDir name env cloneName r vOld
    hname hfound hrtc hrtf hwf
  rw [updateRollback_all_ok _ cloneName r _ env _ hrb1 hrb2 hrb3 hrb4] at hmain
  have hrname := findByName_name st.registry cloneName r hfound
  refine ⟨?_, ?_, ?_, ?_, ?_, ?_⟩
  · rw [hmain]
  · rw [hmain]
    dsimp only
    rw [← hrname]
    exact findByName_upsert_self _ r
  · rw [hmain]
    dsimp only
    exact assocGet_set_self _ _ _
  · rw [hmain]
    dsimp only
    rw [assocGet_set_self]
    dsimp only
    exact assocGet_set_self _ _ _
  · rw [hmain]
    dsimp only
    exact assocGet_erase_self _ _
  · intro env' h1 h2
    have hmain' := updateClone_wrapper_failure_state st binDir name env' cloneName r vOld
      hname hfound hrtc h1 h2
    rw [hmain']
    dsimp only
    rw [updateRollback_backups]
    exact assocGet_erase_self _ _

/-- Clone record used by the update/remove witnesses. -/
def cxUpdClone : CloneRecord :=
  { id := "id-2"
    name := "upd"
    template := some .official
    rootPath := "/work/upd"
    runtimePath := "/work/upd/.codex-mirror/runtime"
    runtimeEntryPath := "/work/upd/.codex-mirror/runtime/bin/codex"
    runtimeKind := .binary
    wrapperPath := "/bin/upd"
    codexVersionPinned := "0.1.0"
    defaultCodexArgs := none
    createdAt := "t0"
    updatedAt := "t0" }

/-- Disk state with the clone `upd` registered, used by the witnesses. -/
def cxUpdState : DiskState :=
  { registry := [cxUpdClone]
    dirs := []
    metadata := []
    secretsFiles := []
    wrappers := ["upd"]
    runtimes := [("/work/upd/.codex-mirror/runtime", "rt-old")]
    backups := [] }

/-- Update environment (wrapper install fails, rollback succeeds). -/
def cxUpdEnv : UpdateEnv :=
  { runtimeFails := false
    runtimeEntry := "/work/upd/.codex-mirror/runtime/bin/codex"
    runtimeKind := .binary
    runtimeVersion := "0.2.0"
    runtimeContent := "rt-new"
    wrapperFails := true
    metadataFails := false
    upsertFails := false
    rbRuntimeFails := false
    rbWrapperFails := false
    rbMetadataFails := false
    rbRegistryFails := false
    backupTag := "b1"
    now := "t1" }

theorem updateClone_wrapper_failure_rollback_witness :
    assertValidCloneName "upd" = .ok "upd" ∧
    findByName cxUpdState.registry "upd" = some cxUpdClone ∧
    ((updateClone cxUpdState "/bin" "upd" cxUpdEnv).2 =
      .error (.transaction "update" "upd" "wrapper install failed" []) ∧
    findByName (updateClone cxUpdState "/bin" "upd" cxUpdEnv).1.registry "upd" =
      some cxUpdClone ∧
    assocGet (updateClone cxUpdState "/bin" "upd" cxUpdEnv).1.metadata
      (deriveClonePaths cxUpdClone.rootPath).metadataPath = some cxUpdClone ∧
    assocGet (updateClone cxUpdState "/bin" "upd" cxUpdEnv).1.runtimes
      cxUpdClone.runtimePath = some "rt-old" ∧
    assocGet (updateClone cxUpdState "/bin" "upd" cxUpdEnv).1.backups
      (cxUpdClone.runtimePath ++ ".backup-" ++ cxUpdEnv.backupTag) = none ∧
    (∀ env' : UpdateEnv, env'.runtimeFails = false → env'.wrapperFails = true →
      assocGet (updateClone cxUpdState "/bin" "upd" env').1.backups
        (cxUpdClone.runtimePath ++ ".backup-" ++ env'.backupTag) = none)) :=
  ⟨rfl, rfl,
   updateClone_wrapper_failure_rollback cxUpdState "/bin" "upd" cxUpdEnv "upd"
     cxUpdClone "rt-old" rfl rfl rfl rfl rfl rfl rfl rfl rfl⟩

/-- Failure injection for one `removeClone` run. -/
structure RemoveEnv where
  removeByNameFails : Bool
  dirRemoveFails : Bool
  wrapperRemoveFails : Bool
  rbUpsertFails : Bool
deriving Repr, DecidableEq

/-- The `catch` block of `removeClone`: re-upsert the removed record,
collecting its own failure into the composite error. -/
def removeRollback (st : DiskState) (cloneName : String) (clone : CloneRecord)
    (env : RemoveEnv) (rootCause : String) : DiskState × Except CMError CloneRecord :=
  if env.rbUpsertFails then
    (st, .error (.transaction "remove" cloneName rootCause ["registry rollback failed"]))
  else
    ({ st with registry := registryUpsert st.registry clone },
      .error (.transaction "remove" cloneName rootCause []))

/-- `CloneManager.removeClone` from `src/core/clone-manager.ts`: delete the
registry entry first (outside the try block, so its own failure propagates as
a plain error with the registry untouched), then delete the clone directory
tree and the wrapper; if either deletion fails, re-upsert the record and
throw the composite error. -/
def removeClone (st : DiskState) (name : String) (env : RemoveEnv) :
    DiskState × Except CMError CloneRecord :=
  match assertValidCloneName name with
  | .error e => (st, .error (.plain e))
  | .ok cloneName =>
    match findByName st.registry cloneName with
    | none => (st, .error (.plain ("Clone not found: " ++ cloneName)))
    | some clone =>
      let paths := deriveClonePaths clone.rootPath
      if env.removeByNameFails then (st, .error (.plain "registry remove failed"))
      else
        let st1 := { st with registry := (registryRemoveByName st.registry cloneName).1 }
        if env.dirRemoveFails then
          removeRollback st1 cloneName clone env "clone directory removal failed"
        else
          let st2 := removeTree st1 paths.cloneBaseDir
          if env.wrapperRemoveFails then
            removeRollback st2 cloneName clone env "wrapper removal failed"
          else
            let st3 := { st2 with
              wrappers := st2.wrappers.filter (fun w => !(w = cloneName)) }
            (st3, .ok clone)

/-- **C4**: `removeClone` deletes the registry entry first; if deleting the
clone directory tree or the wrapper then fails (and the re-upsert succeeds),
it throws the composite remove transaction error and the record is present in
the registry again afterwards, so the clone is not lost while its files still
exist. -/
theorem removeClone_failure_restores_registry (st : DiskState) (name : String)
    (env : RemoveEnv) (cloneName : String) (r : CloneRecord)
    (hname : assertValidCloneName name = .ok cloneName)
    (hfound : findByName st.registry cloneName = some r)
    (hrm : env.removeByNameFails = false)
    (hfail : env.dirRemoveFails = true ∨ env.wrapperRemoveFails = true)
    (hrb : env.rbUpsertFails = false) :
    (∃ rootCause, (removeClone st name env).2 =
      .error (.transaction "remove" cloneName rootCause [])) ∧
    findByName (removeClone st name env).1.registry cloneName = some r := by
  have hrname := findByName_name st.registry cloneName r hfound
  unfold removeClone
  rw [hname]
  dsimp only
  rw [hfound]
  dsimp only
  rw [hrm]
  rw [if_neg (by simp)]
  by_cases hd : env.dirRemoveFails
  · rw [if_pos hd]
    unfold removeRollback
    rw [hrb]
    rw [if_neg (by simp)]
    refine ⟨⟨"clone directory removal failed", rfl⟩, ?_⟩
    dsimp only
    rw [← hrname]
    exact findByName_upsert_self _ r
  · rcases hfail with hfail | hwfail
    · exact absurd hfail hd
    · rw [if_neg hd]
      rw [hwfail]
      rw [if_pos rfl]
      unfold removeRollback
      rw [hrb]
      rw [if_neg (by simp)]
      refine ⟨⟨"wrapper removal failed", rfl⟩, ?_⟩
      dsimp only
      rw [← hrname]
      exact findByName_upsert_self _ r

/-- Remove environment (directory removal fails, re-upsert succeeds). -/
def cxRemoveEnv : RemoveEnv :=
  { removeByNameFails := false
    dirRemoveFails := true
    wrapperRemoveFails := false
    rbUpsertFails := false }

theorem removeClone_failure_restores_registry_witness :
    assertValidCloneName "upd" = .ok "upd" ∧
    findByName cxUpdState.registry "upd" = some cxUpdClone ∧
    ((∃ rootCause, (removeClone cxUpdState "upd" cxRemoveEnv).2 =
      .error (.transaction "remove" "upd" rootCause [])) ∧
    findByName (removeClone cxUpdState "upd" cxRemoveEnv).1.registry "upd" =
      some cxUpdClone) :=
  ⟨rfl, rfl,
   removeClone_failure_restores_registry cxUpdState "upd" cxRemoveEnv "upd"
     cxUpdClone rfl rfl rfl (Or.inl rfl) rfl⟩

end CodexMirror
